import Mathlib

/-!
Shallow embedding of the request-to-witness marshalling core of the
Zcash Sapling proving service (`src/proving-service/src/main.rs`).

The zk-SNARK proving backend and the algebraic library types
(payment addresses, note commitments, Merkle nodes/paths, proof
generation keys) are out of scope for the core and are modelled as
abstract operations collected in a `Codec` (decoding/derivation and
response encoding) and a `Prover` (the two opaque proof operations),
exactly as the specification draws the boundary.  Field elements of
jubjub's scalar field Fr and of the BLS12-381 scalar field are
represented by their canonical natural-number values; byte strings by
`List (Fin 256)`.  Rust operations that can panic (`copy_from_slice`
on a mismatched length, `CtOption::unwrap` on a `None`) are modelled
explicitly so that panic-freedom is a provable statement.
-/

/-- A byte, as carried in the request vectors (`Vec<u8>` in the source). -/
abbrev Byte := Fin 256

/-- Little-endian value of a byte string (how `from_bytes` of both field
types interprets its 32-byte input). -/
def leVal : List Byte → Nat
  | [] => 0
  | b :: bs => b.val + 256 * leVal bs

/-- Canonical little-endian encoding of a natural number on `k` bytes
(how `to_bytes` of the field types produces its output). -/
def leBytes : Nat → Nat → List Byte
  | 0, _ => []
  | k + 1, n => ⟨n % 256, Nat.mod_lt n (by decide)⟩ :: leBytes k (n / 256)

theorem leBytes_length (k n : Nat) : (leBytes k n).length = k := by
  induction k generalizing n with
  | zero => rfl
  | succ k ih => simp [leBytes, ih]

theorem leVal_lt (bs : List Byte) : leVal bs < 256 ^ bs.length := by
  induction bs with
  | nil => simp [leVal]
  | cons b bs ih =>
    have hb : b.val < 256 := b.isLt
    simp only [leVal, List.length_cons, pow_succ]
    calc b.val + 256 * leVal bs < 256 + 256 * leVal bs := by omega
      _ ≤ 256 * (leVal bs + 1) := by ring_nf; omega
      _ ≤ 256 * 256 ^ bs.length := by
          have := ih
          exact Nat.mul_le_mul_left 256 (by omega)
      _ = 256 ^ bs.length * 256 := by ring

theorem leVal_leBytes (k n : Nat) : leVal (leBytes k n) = n % 256 ^ k := by
  induction k generalizing n with
  | zero => simp [leBytes, leVal, Nat.mod_one]
  | succ k ih =>
    simp only [leBytes, leVal, ih]
    have h : (256 : Nat) ^ (k + 1) = 256 * 256 ^ k := by ring
    rw [h, Nat.mod_mul]

theorem leBytes_leVal (bs : List Byte) : leBytes bs.length (leVal bs) = bs := by
  induction bs with
  | nil => rfl
  | cons b bs ih =>
    have hb : b.val < 256 := b.isLt
    simp only [List.length_cons, leBytes, leVal]
    have hdiv : (b.val + 256 * leVal bs) / 256 = leVal bs := by omega
    rw [hdiv, ih]
    have hmod : (b.val + 256 * leVal bs) % 256 = b.val := by omega
    congr 1
    exact Fin.ext hmod

theorem leVal_leBytes_of_lt {k n : Nat} (h : n < 256 ^ k) :
    leVal (leBytes k n) = n := by
  rw [leVal_leBytes]; exact Nat.mod_eq_of_lt h

/-- Error classes of the service, following the specification's error
taxonomy; each constructor carries the exact message of the
corresponding `bail!`/`context` site in the source. -/
inductive Err
  | lengthErr (msg : String)
  | invalidEncoding (msg : String)
  | parseErr (msg : String)
  | pathErr (msg : String)
  | provingErr (msg : String)
  deriving Repr, DecidableEq

/-- A run either panics (a Rust `panic!`, e.g. `copy_from_slice` length
mismatch or `CtOption::unwrap` of a `None`), fails with a reported
error, or succeeds. -/
inductive RErr
  | panic
  | fail (e : Err)
  deriving Repr, DecidableEq

/-- Result monad of the embedded service code. -/
abbrev PResult (A : Type) := Except RErr A

/-- `dst.copy_from_slice(src)` for a destination of length `n`: panics
unless the source has exactly length `n`, otherwise yields the copied
bytes. -/
def copyFromSlice (n : Nat) (src : List Byte) : PResult (List Byte) :=
  if src.length = n then .ok src else .error .panic

/-- `CtOption::unwrap` / `Option::unwrap`: panics on `none`. -/
def ctUnwrap {A : Type} (o : Option A) : PResult A :=
  match o with
  | some a => .ok a
  | none => .error .panic

/-- `true` unless the computation panicked. -/
def panicFree {A : Type} : PResult A → Bool
  | .error .panic => false
  | _ => true

theorem panicFree_bind {A B : Type} {m : PResult A} {f : A → PResult B}
    (hm : panicFree m = true) (hf : ∀ a, panicFree (f a) = true) :
    panicFree (m >>= f) = true := by
  cases m with
  | ok a => simpa [Except.bind] using hf a
  | error e =>
    cases e with
    | panic => simp [panicFree] at hm
    | fail e => rfl

/-- Order of the jubjub prime-order subgroup: the modulus of `jubjub::Fr`. -/
def rJubjub : Nat :=
  6554484396890773809930967563523245729705921265872317281365359162392183254199

/-- Modulus of the BLS12-381 scalar field `bls12_381::Scalar`. -/
def qBls : Nat :=
  52435875175126190479447740508185965837690552500527637822603658699938581184513

/-- `jubjub::Fr::from_bytes`, modelled from the spec's codec contract:
the 32 bytes are a little-endian canonical encoding, rejected unless the
value is below the field modulus. -/
def frFromBytes (arr : List Byte) : Option Nat :=
  if leVal arr < rJubjub then some (leVal arr) else none

/-- `bls12_381::Scalar::from_bytes`, modelled from the spec's codec
contract: little-endian canonical encoding, rejected unless below the
modulus. -/
def scalarFromBytes (arr : List Byte) : Option Nat :=
  if leVal arr < qBls then some (leVal arr) else none

/-- `bytes_to_fr` from the source: length gate, fixed-size copy, backend
decode, `is_some` check before `unwrap`. -/
def bytes_to_fr (bytes : List Byte) : PResult Nat := do
  if bytes.length ≠ 32 then
    throw (.fail (.lengthErr "Field element must be 32 bytes"))
  let arr ← copyFromSlice 32 bytes
  let fr_opt := frFromBytes arr
  if fr_opt.isSome then
    ctUnwrap fr_opt
  else
    throw (.fail (.invalidEncoding "Invalid field element"))

/-- `bytes_to_scalar` from the source. -/
def bytes_to_scalar (bytes : List Byte) : PResult Nat := do
  if bytes.length ≠ 32 then
    throw (.fail (.lengthErr "Scalar must be 32 bytes"))
  let arr ← copyFromSlice 32 bytes
  let scalar_opt := scalarFromBytes arr
  if scalar_opt.isSome then
    ctUnwrap scalar_opt
  else
    throw (.fail (.invalidEncoding "Invalid scalar"))

/-- Decimal parsing of `str.parse::<u64>()`: an optional leading `+`,
then one or more ASCII digits, read in base 10.  `none` on an empty or
non-digit string; the overflow bound is checked by `parseU64`. -/
def parsedDec (s : String) : Option Nat :=
  let l := if s.data.head? = some '+' then s.data.drop 1 else s.data
  if l = [] then none
  else if l.all Char.isDigit then
    some (l.foldl (fun acc c => acc * 10 + (c.toNat - 48)) 0)
  else none

/-- `str.parse::<u64>().context(msg)`: fails on non-numeric strings and
on values outside the unsigned 64-bit range. -/
def parseU64 (s : String) (msg : String) : PResult Nat :=
  match parsedDec s with
  | some v => if v < 2 ^ 64 then .ok v else .error (.fail (.parseErr msg))
  | none => .error (.fail (.parseErr msg))

/-- `SpendProofRequest` wire structure. -/
structure SpendProofRequest where
  spending_key : List Byte
  nsk : List Byte
  value : String
  rcv : List Byte
  alpha : List Byte
  anchor : List Byte
  merkle_path : List (List Byte)
  position : String

/-- `OutputProofRequest` wire structure. -/
structure OutputProofRequest where
  value : String
  rcv : List Byte
  rcm : List Byte
  diversifier : List Byte
  pk_d : List Byte
  esk : Option (List Byte)

/-- `ProofResponse` wire structure (`rk`/`cmu` serialized only when
present). -/
structure ProofResponse where
  proof : List Byte
  cv : List Byte
  rk : Option (List Byte)
  cmu : Option (List Byte)

/-- `ExpandedSpendingKey { ask, nsk, ovk }` as assembled by the spend
builder: the two decoded scalars plus the raw outgoing viewing key
bytes. -/
structure ExpandedSpendingKey where
  ask : Nat
  nsk : Nat
  ovk : List Byte

/-- `Rseed`: the two historical note-randomness schemes. -/
inductive Rseed
  | beforeZip212 (rcm : Nat)
  | afterZip212 (bytes : List Byte)
  deriving DecidableEq

/-- The algebraic backend operations the marshalling core relies on,
modelled from the spec as opaque decoding, derivation and encoding
capabilities over abstract carrier types (payment addresses, note
commitments, Merkle nodes and paths, proof generation keys, value
commitments, randomized keys). -/
structure Codec where
  Addr : Type
  Cmu : Type
  Node : Type
  Path : Type
  PGK : Type
  Cv : Type
  Rk : Type
  paymentAddressFromBytes : List Byte → Option Addr
  extractedNoteCommitmentFromBytes : List Byte → Option Cmu
  nodeFromCmu : Cmu → Node
  merklePathFromParts : List Node → Nat → Option Path
  proofGenerationKey : ExpandedSpendingKey → PGK
  noteCmu : Addr → Nat → Rseed → Cmu
  cmuToBytes : Cmu → List Byte
  cvToBytes : Cv → List Byte
  rkToBytes : Rk → List Byte

/-- The two opaque proving operations of the backend
(`spend_proof` may fail; `output_proof` is total). -/
structure Prover (C : Codec) where
  spendProof : C.PGK → List Byte → Rseed → Nat → Nat → Nat → C.Path →
    Option (List Byte × C.Cv × C.Rk)
  outputProof : Nat → C.Addr → Nat → Nat → List Byte × C.Cv

/-- The complete witness handed to `spend_proof`. -/
structure SpendWitness (C : Codec) where
  pgk : C.PGK
  diversifier : List Byte
  rseed : Rseed
  ar : Nat
  value : Nat
  anchor : Nat
  path : C.Path

/-- The complete witness handed to `output_proof`. -/
structure OutputWitness (C : Codec) where
  esk : Nat
  addr : C.Addr
  rcm : Nat
  value : Nat

/-- The Merkle-path loop of the spend builder: for each element, the
length gate, the fixed-size copy, the commitment decode guarded by
`is_some`, and the node derivation; `i` is the running index used in
error messages. -/
def decodePathElems (C : Codec) : Nat → List (List Byte) → PResult (List C.Node)
  | _, [] => .ok []
  | i, e :: rest => do
    if e.length ≠ 32 then
      throw (.fail (.lengthErr ("Merkle path element " ++ toString i ++ " must be 32 bytes")))
    let elem ← copyFromSlice 32 e
    let cmu_opt := C.extractedNoteCommitmentFromBytes elem
    if cmu_opt.isSome then
      let cmu ← ctUnwrap cmu_opt
      let ns ← decodePathElems C (i + 1) rest
      pure (C.nodeFromCmu cmu :: ns)
    else
      throw (.fail (.invalidEncoding
        ("Invalid merkle path element " ++ toString i ++ " - not a valid commitment")))

/-- Validation and decoding phase of `generate_spend_proof_internal`,
in source order: decimal parses, the five fixed-length gates, scalar
decodes, Merkle path construction, fixed diversifier and rseed. -/
def buildSpendWitness (C : Codec) (req : SpendProofRequest) :
    PResult (SpendWitness C) := do
  let value ← parseU64 req.value "Invalid value"
  let position ← parseU64 req.position "Invalid position"
  if req.spending_key.length ≠ 32 then
    throw (.fail (.lengthErr "spending_key (ask) must be 32 bytes"))
  if req.nsk.length ≠ 32 then
    throw (.fail (.lengthErr "nsk must be 32 bytes"))
  if req.rcv.length ≠ 32 then
    throw (.fail (.lengthErr "rcv must be 32 bytes"))
  if req.alpha.length ≠ 32 then
    throw (.fail (.lengthErr "alpha must be 32 bytes"))
  if req.anchor.length ≠ 32 then
    throw (.fail (.lengthErr "anchor must be 32 bytes"))
  let ask ← bytes_to_fr req.spending_key
  let nsk ← bytes_to_fr req.nsk
  let ovk : List Byte := List.replicate 32 0
  let expsk : ExpandedSpendingKey := ⟨ask, nsk, ovk⟩
  let proof_generation_key := C.proofGenerationKey expsk
  let ar ← bytes_to_fr req.alpha
  let anchor ← bytes_to_scalar req.anchor
  let path_elems ← decodePathElems C 0 req.merkle_path
  let merkle_path ←
    match C.merklePathFromParts path_elems position with
    | some p => pure p
    | none => throw (.fail (.pathErr
        "Failed to create MerklePath - invalid position or path length"))
  let diversifier : List Byte := List.replicate 11 0
  let rcv_fr ← bytes_to_fr req.rcv
  let rseed := Rseed.beforeZip212 rcv_fr
  pure ⟨proof_generation_key, diversifier, rseed, ar, value, anchor, merkle_path⟩

/-- `generate_spend_proof_internal`: build the witness, invoke the
backend's `spend_proof`, encode the response with `rk` present and
`cmu` absent. -/
def generate_spend_proof_internal (C : Codec) (P : Prover C)
    (req : SpendProofRequest) : PResult ProofResponse := do
  let w ← buildSpendWitness C req
  match P.spendProof w.pgk w.diversifier w.rseed w.ar w.value w.anchor w.path with
  | some (proof_bytes, cv, rk) =>
    pure ⟨proof_bytes, C.cvToBytes cv, some (C.rkToBytes rk), none⟩
  | none => throw (.fail (.provingErr
      "Proof generation failed - check inputs (anchor, merkle path, etc.)"))

/-- Validation and decoding phase of `generate_output_proof_internal`,
in source order.  `rng_esk` is the injected random scalar used when the
request carries no `esk` (spec: randomness as an injected capability). -/
def buildOutputWitness (C : Codec) (rng_esk : Nat) (req : OutputProofRequest) :
    PResult (OutputWitness C) := do
  let value ← parseU64 req.value "Invalid value"
  if req.rcv.length ≠ 32 then
    throw (.fail (.lengthErr "rcv must be 32 bytes"))
  if req.rcm.length ≠ 32 then
    throw (.fail (.lengthErr "rcm must be 32 bytes"))
  if req.diversifier.length ≠ 11 then
    throw (.fail (.lengthErr "diversifier must be 11 bytes"))
  if req.pk_d.length ≠ 32 then
    throw (.fail (.lengthErr "pk_d must be 32 bytes"))
  let _diversifier_bytes ← copyFromSlice 11 req.diversifier
  let addrHead ← copyFromSlice 11 req.diversifier
  let addrTail ← copyFromSlice 32 req.pk_d
  let address_bytes := addrHead ++ addrTail
  let payment_address ←
    match C.paymentAddressFromBytes address_bytes with
    | some pa => pure pa
    | none => throw (.fail (.invalidEncoding
        "Failed to create payment address from bytes"))
  let rcm ← bytes_to_fr req.rcm
  let esk ←
    match req.esk with
    | some esk_bytes => do
      if esk_bytes.length ≠ 32 then
        throw (.fail (.lengthErr "esk must be 32 bytes if provided"))
      bytes_to_fr esk_bytes
    | none => pure rng_esk
  pure ⟨esk, payment_address, rcm, value⟩

/-- `generate_output_proof_internal`: build the witness, invoke the
backend's `output_proof`, then locally recompute the note commitment
from (address, value, `AfterZip212` of the re-encoded `rcm`) and encode
the response with `cmu` present and `rk` absent. -/
def generate_output_proof_internal (C : Codec) (P : Prover C) (rng_esk : Nat)
    (req : OutputProofRequest) : PResult ProofResponse := do
  let w ← buildOutputWitness C rng_esk req
  let (proof_bytes, cv) := P.outputProof w.esk w.addr w.rcm w.value
  let fr_bytes := leBytes 32 w.rcm
  let rcm_bytes ← copyFromSlice 32 fr_bytes
  let cmu := C.noteCmu w.addr w.value (Rseed.afterZip212 rcm_bytes)
  pure ⟨proof_bytes, C.cvToBytes cv, none, some (C.cmuToBytes cmu)⟩

theorem presult_ok_bind {A B : Type} (a : A) (f : A → PResult B) :
    (Except.ok a >>= f) = f a := rfl

theorem presult_pure_bind {A B : Type} (a : A) (f : A → PResult B) :
    ((pure a : PResult A) >>= f) = f a := rfl

theorem presult_error_bind {A B : Type} (e : RErr) (f : A → PResult B) :
    ((Except.error e : PResult A) >>= f) = .error e := rfl

theorem presult_throw {A : Type} (e : RErr) :
    (throw e : PResult A) = .error e := rfl

/-- Explicit branch form of `buildOutputWitness`. -/
def buildOutputWitnessE (C : Codec) (rng_esk : Nat) (req : OutputProofRequest) :
    PResult (OutputWitness C) :=
  match parseU64 req.value "Invalid value" with
  | .error e => .error e
  | .ok value =>
  if req.rcv.length ≠ 32 then .error (.fail (.lengthErr "rcv must be 32 bytes"))
  else if req.rcm.length ≠ 32 then .error (.fail (.lengthErr "rcm must be 32 bytes"))
  else if req.diversifier.length ≠ 11 then .error (.fail (.lengthErr "diversifier must be 11 bytes"))
  else if req.pk_d.length ≠ 32 then .error (.fail (.lengthErr "pk_d must be 32 bytes"))
  else
  match C.paymentAddressFromBytes (req.diversifier ++ req.pk_d) with
  | none => .error (.fail (.invalidEncoding "Failed to create payment address from bytes"))
  | some payment_address =>
  match bytes_to_fr req.rcm with
  | .error e => .error e
  | .ok rcm =>
  match req.esk with
  | some esk_bytes =>
    if esk_bytes.length ≠ 32 then .error (.fail (.lengthErr "esk must be 32 bytes if provided"))
    else
      match bytes_to_fr esk_bytes with
      | .error e => .error e
      | .ok esk => .ok ⟨esk, payment_address, rcm, value⟩
  | none => .ok ⟨rng_esk, payment_address, rcm, value⟩

theorem buildOutputWitness_eq (C : Codec) (rng : Nat) (req : OutputProofRequest) :
    buildOutputWitness C rng req = buildOutputWitnessE C rng req := by
  unfold buildOutputWitness buildOutputWitnessE
  cases hv : parseU64 req.value "Invalid value" with
  | error e => rfl
  | ok value =>
    simp only [presult_ok_bind]
    by_cases h1 : req.rcv.length = 32 <;>
      by_cases h2 : req.rcm.length = 32 <;>
        by_cases h3 : req.diversifier.length = 11 <;>
          by_cases h4 : req.pk_d.length = 32 <;>
            simp only [h1, h2, h3, h4, ne_eq, not_true_eq_false, not_false_eq_true, ite_true,
              ite_false, if_true, if_false, copyFromSlice, presult_throw, presult_error_bind,
              presult_ok_bind] <;> try rfl
    cases hpa : C.paymentAddressFromBytes (req.diversifier ++ req.pk_d) with
    | none => rfl
    | some payment_address =>
      simp only [presult_ok_bind]
      cases hr : bytes_to_fr req.rcm with
      | error e => rfl
      | ok rcm =>
        simp only [presult_ok_bind]
        cases hesk : req.esk with
        | none => rfl
        | some esk_bytes =>
          by_cases h5 : esk_bytes.length = 32 <;>
            simp only [h5, ne_eq, not_true_eq_false, not_false_eq_true, ite_true, ite_false,
              presult_throw, presult_error_bind, presult_ok_bind] <;> try rfl
          cases he : bytes_to_fr esk_bytes with
          | error e => rfl
          | ok esk => rfl

/-- Explicit branch form of `buildSpendWitness`. -/
def buildSpendWitnessE (C : Codec) (req : SpendProofRequest) :
    PResult (SpendWitness C) :=
  match parseU64 req.value "Invalid value" with
  | .error e => .error e
  | .ok value =>
  match parseU64 req.position "Invalid position" with
  | .error e => .error e
  | .ok position =>
  if req.spending_key.length ≠ 32 then
    .error (.fail (.lengthErr "spending_key (ask) must be 32 bytes"))
  else if req.nsk.length ≠ 32 then .error (.fail (.lengthErr "nsk must be 32 bytes"))
  else if req.rcv.length ≠ 32 then .error (.fail (.lengthErr "rcv must be 32 bytes"))
  else if req.alpha.length ≠ 32 then .error (.fail (.lengthErr "alpha must be 32 bytes"))
  else if req.anchor.length ≠ 32 then .error (.fail (.lengthErr "anchor must be 32 bytes"))
  else
  match bytes_to_fr req.spending_key with
  | .error e => .error e
  | .ok ask =>
  match bytes_to_fr req.nsk with
  | .error e => .error e
  | .ok nsk =>
  match bytes_to_fr req.alpha with
  | .error e => .error e
  | .ok ar =>
  match bytes_to_scalar req.anchor with
  | .error e => .error e
  | .ok anchor =>
  match decodePathElems C 0 req.merkle_path with
  | .error e => .error e
  | .ok path_elems =>
  match C.merklePathFromParts path_elems position with
  | none => .error (.fail (.pathErr
      "Failed to create MerklePath - invalid position or path length"))
  | some merkle_path =>
  match bytes_to_fr req.rcv with
  | .error e => .error e
  | .ok rcv_fr =>
    .ok ⟨C.proofGenerationKey ⟨ask, nsk, List.replicate 32 0⟩, List.replicate 11 0,
      Rseed.beforeZip212 rcv_fr, ar, value, anchor, merkle_path⟩

theorem buildSpendWitness_eq (C : Codec) (req : SpendProofRequest) :
    buildSpendWitness C req = buildSpendWitnessE C req := by
  unfold buildSpendWitness buildSpendWitnessE
  cases hv : parseU64 req.value "Invalid value" with
  | error e => rfl
  | ok value =>
    simp only [presult_ok_bind]
    cases hp : parseU64 req.position "Invalid position" with
    | error e => rfl
    | ok position =>
      simp only [presult_ok_bind]
      by_cases h1 : req.spending_key.length = 32 <;>
        by_cases h2 : req.nsk.length = 32 <;>
          by_cases h3 : req.rcv.length = 32 <;>
            by_cases h4 : req.alpha.length = 32 <;>
              by_cases h5 : req.anchor.length = 32 <;>
                simp only [h1, h2, h3, h4, h5, ne_eq, not_true_eq_false, not_false_eq_true,
                  ite_true, ite_false, presult_throw, presult_error_bind, presult_ok_bind] <;>
                try rfl
      cases ha : bytes_to_fr req.spending_key with
      | error e => rfl
      | ok ask =>
        simp only [presult_ok_bind]
        cases hn : bytes_to_fr req.nsk with
        | error e => rfl
        | ok nsk =>
          simp only [presult_ok_bind]
          cases har : bytes_to_fr req.alpha with
          | error e => rfl
          | ok ar =>
            simp only [presult_ok_bind]
            cases hanc : bytes_to_scalar req.anchor with
            | error e => rfl
            | ok anchor =>
              simp only [presult_ok_bind]
              cases hpe : decodePathElems C 0 req.merkle_path with
              | error e => rfl
              | ok path_elems =>
                simp only [presult_ok_bind]
                cases hmp : C.merklePathFromParts path_elems position with
                | none => rfl
                | some merkle_path =>
                  simp only [presult_ok_bind]
                  cases hrcv : bytes_to_fr req.rcv with
                  | error e => rfl
                  | ok rcv_fr => rfl

/-- Explicit branch form of `generate_spend_proof_internal`. -/
def generateSpendE (C : Codec) (P : Prover C) (req : SpendProofRequest) :
    PResult ProofResponse :=
  match buildSpendWitness C req with
  | .error e => .error e
  | .ok w =>
    match P.spendProof w.pgk w.diversifier w.rseed w.ar w.value w.anchor w.path with
    | some (proof_bytes, cv, rk) =>
      .ok ⟨proof_bytes, C.cvToBytes cv, some (C.rkToBytes rk), none⟩
    | none => .error (.fail (.provingErr
        "Proof generation failed - check inputs (anchor, merkle path, etc.)"))

theorem generate_spend_eq (C : Codec) (P : Prover C) (req : SpendProofRequest) :
    generate_spend_proof_internal C P req = generateSpendE C P req := by
  unfold generate_spend_proof_internal generateSpendE
  cases hw : buildSpendWitness C req with
  | error e => rfl
  | ok w =>
    simp only [presult_ok_bind]
    cases hsp : P.spendProof w.pgk w.diversifier w.rseed w.ar w.value w.anchor w.path with
    | none => rfl
    | some t => rcases t with ⟨pf, cv, rk⟩; rfl

/-- Explicit branch form of `generate_output_proof_internal`: on a built
witness the response is total, with the locally recomputed `cmu`. -/
def generateOutputE (C : Codec) (P : Prover C) (rng_esk : Nat)
    (req : OutputProofRequest) : PResult ProofResponse :=
  match buildOutputWitness C rng_esk req with
  | .error e => .error e
  | .ok w =>
    .ok ⟨(P.outputProof w.esk w.addr w.rcm w.value).1,
      C.cvToBytes (P.outputProof w.esk w.addr w.rcm w.value).2, none,
      some (C.cmuToBytes (C.noteCmu w.addr w.value
        (Rseed.afterZip212 (leBytes 32 w.rcm))))⟩

theorem generate_output_eq (C : Codec) (P : Prover C) (rng : Nat)
    (req : OutputProofRequest) :
    generate_output_proof_internal C P rng req = generateOutputE C P rng req := by
  unfold generate_output_proof_internal generateOutputE
  cases hw : buildOutputWitness C rng req with
  | error e => rfl
  | ok w =>
    simp only [presult_ok_bind, copyFromSlice, leBytes_length, if_true]
    rfl

/-- Full characterization of `bytes_to_fr`: length gate, then canonical
range check on the little-endian value. -/
theorem bytes_to_fr_eq (b : List Byte) :
    bytes_to_fr b =
      if b.length = 32 then
        if leVal b < rJubjub then .ok (leVal b)
        else .error (.fail (.invalidEncoding "Invalid field element"))
      else .error (.fail (.lengthErr "Field element must be 32 bytes")) := by
  unfold bytes_to_fr
  by_cases h : b.length = 32
  · by_cases hlt : leVal b < rJubjub <;>
      simp [h, hlt, copyFromSlice, frFromBytes, ctUnwrap, presult_throw,
        presult_error_bind, presult_ok_bind]
  · simp [h, presult_throw, presult_error_bind]

/-- Full characterization of `bytes_to_scalar`. -/
theorem bytes_to_scalar_eq (b : List Byte) :
    bytes_to_scalar b =
      if b.length = 32 then
        if leVal b < qBls then .ok (leVal b)
        else .error (.fail (.invalidEncoding "Invalid scalar"))
      else .error (.fail (.lengthErr "Scalar must be 32 bytes")) := by
  unfold bytes_to_scalar
  by_cases h : b.length = 32
  · by_cases hlt : leVal b < qBls <;>
      simp [h, hlt, copyFromSlice, scalarFromBytes, ctUnwrap, presult_throw,
        presult_error_bind, presult_ok_bind]
  · simp [h, presult_throw, presult_error_bind]

theorem decodePathElems_nil (C : Codec) (i : Nat) :
    decodePathElems C i [] = .ok [] := rfl

theorem decodePathElems_cons_badlen (C : Codec) (i : Nat) (e : List Byte)
    (rest : List (List Byte)) (he : e.length ≠ 32) :
    decodePathElems C i (e :: rest) =
      .error (.fail (.lengthErr
        ("Merkle path element " ++ toString i ++ " must be 32 bytes"))) := by
  unfold decodePathElems
  simp [he, presult_throw, presult_error_bind]

theorem decodePathElems_cons_ok (C : Codec) (i : Nat) (e : List Byte)
    (rest : List (List Byte)) (he : e.length = 32) {cmu : C.Cmu}
    (hc : C.extractedNoteCommitmentFromBytes e = some cmu) :
    decodePathElems C i (e :: rest) =
      (decodePathElems C (i + 1) rest) >>= fun ns => .ok (C.nodeFromCmu cmu :: ns) := by
  conv_lhs => unfold decodePathElems
  simp only [he, ne_eq, not_true_eq_false, ite_false, if_false, copyFromSlice, if_true,
    presult_ok_bind, presult_pure_bind, hc, Option.isSome_some, ctUnwrap, ite_true]
  rfl

theorem decodePathElems_cons_badenc (C : Codec) (i : Nat) (e : List Byte)
    (rest : List (List Byte)) (he : e.length = 32)
    (hc : C.extractedNoteCommitmentFromBytes e = none) :
    decodePathElems C i (e :: rest) =
      .error (.fail (.invalidEncoding
        ("Invalid merkle path element " ++ toString i ++ " - not a valid commitment"))) := by
  unfold decodePathElems
  simp [he, copyFromSlice, hc, presult_throw, presult_error_bind, presult_ok_bind]

/-- A list of well-formed siblings decodes completely, to one node per
sibling. -/
theorem decodePathElems_all_ok (C : Codec) (elems : List (List Byte)) :
    ∀ i, (∀ x ∈ elems, x.length = 32 ∧
        (C.extractedNoteCommitmentFromBytes x).isSome = true) →
      ∃ ns, decodePathElems C i elems = .ok ns ∧ ns.length = elems.length := by
  induction elems with
  | nil => exact fun i _ => ⟨[], rfl, rfl⟩
  | cons e rest ih =>
    intro i h
    obtain ⟨he, hd⟩ := h e (by simp)
    obtain ⟨cmu, hc⟩ := Option.isSome_iff_exists.mp hd
    obtain ⟨ns, hns, hlen⟩ := ih (i + 1) (fun x hx => h x (by simp [hx]))
    refine ⟨C.nodeFromCmu cmu :: ns, ?_, by simp [hlen]⟩
    rw [decodePathElems_cons_ok C i e rest he hc, hns, presult_ok_bind]

/-- A wrong-length sibling after a well-formed prefix stops the loop
with a length error naming the sibling's index. -/
theorem decodePathElems_badlen_after (C : Codec) (pre : List (List Byte))
    (e : List Byte) (rest : List (List Byte)) :
    ∀ i, (∀ x ∈ pre, x.length = 32 ∧
        (C.extractedNoteCommitmentFromBytes x).isSome = true) →
      e.length ≠ 32 →
      decodePathElems C i (pre ++ e :: rest) =
        .error (.fail (.lengthErr
          ("Merkle path element " ++ toString (i + pre.length) ++ " must be 32 bytes"))) := by
  induction pre with
  | nil =>
    intro i _ he
    simpa using decodePathElems_cons_badlen C i e rest he
  | cons p pre ih =>
    intro i h he
    obtain ⟨hp, hd⟩ := h p (by simp)
    obtain ⟨cmu, hc⟩ := Option.isSome_iff_exists.mp hd
    rw [List.cons_append, decodePathElems_cons_ok C i p (pre ++ e :: rest) hp hc,
      ih (i + 1) (fun x hx => h x (by simp [hx])) he]
    have harith : i + 1 + pre.length = i + (p :: pre).length := by
      simp [List.length_cons]; omega
    rw [harith, presult_error_bind]

theorem panicFree_parseU64 (s msg : String) : panicFree (parseU64 s msg) = true := by
  unfold parseU64
  cases parsedDec s with
  | none => rfl
  | some v => split <;> first | rfl | (split <;> rfl)

theorem panicFree_bytes_to_fr (b : List Byte) : panicFree (bytes_to_fr b) = true := by
  rw [bytes_to_fr_eq]
  by_cases h : b.length = 32 <;> by_cases hlt : leVal b < rJubjub <;> simp [h, hlt, panicFree]

theorem panicFree_bytes_to_scalar (b : List Byte) :
    panicFree (bytes_to_scalar b) = true := by
  rw [bytes_to_scalar_eq]
  by_cases h : b.length = 32 <;> by_cases hlt : leVal b < qBls <;> simp [h, hlt, panicFree]

theorem panicFree_decodePathElems (C : Codec) (elems : List (List Byte)) :
    ∀ i, panicFree (decodePathElems C i elems) = true := by
  induction elems with
  | nil => intro i; rfl
  | cons e rest ih =>
    intro i
    by_cases he : e.length = 32
    · cases hc : C.extractedNoteCommitmentFromBytes e with
      | none => rw [decodePathElems_cons_badenc C i e rest he hc]; rfl
      | some cmu =>
        rw [decodePathElems_cons_ok C i e rest he hc]
        exact panicFree_bind (ih (i + 1)) (fun a => rfl)
    · rw [decodePathElems_cons_badlen C i e rest he]; rfl

theorem panicFree_of_eq_error {A B : Type} {m : PResult A} {e : RErr}
    (he : m = .error e) (h : panicFree m = true) :
    panicFree (.error e : PResult B) = true := by
  cases e with
  | panic => rw [he] at h; simp [panicFree] at h
  | fail e => rfl

theorem panicFree_buildSpendWitness (C : Codec) (req : SpendProofRequest) :
    panicFree (buildSpendWitness C req) = true := by
  rw [buildSpendWitness_eq]
  unfold buildSpendWitnessE
  repeat' split
  all_goals first
    | rfl
    | exact panicFree_of_eq_error (by assumption) (panicFree_parseU64 _ _)
    | exact panicFree_of_eq_error (by assumption) (panicFree_bytes_to_fr _)
    | exact panicFree_of_eq_error (by assumption) (panicFree_bytes_to_scalar _)
    | exact panicFree_of_eq_error (by assumption) (panicFree_decodePathElems _ _ _)

theorem panicFree_buildOutputWitness (C : Codec) (rng : Nat)
    (req : OutputProofRequest) :
    panicFree (buildOutputWitness C rng req) = true := by
  rw [buildOutputWitness_eq]
  unfold buildOutputWitnessE
  repeat' split
  all_goals first
    | rfl
    | exact panicFree_of_eq_error (by assumption) (panicFree_parseU64 _ _)
    | exact panicFree_of_eq_error (by assumption) (panicFree_bytes_to_fr _)

theorem panicFree_generate_spend (C : Codec) (P : Prover C)
    (req : SpendProofRequest) :
    panicFree (generate_spend_proof_internal C P req) = true := by
  rw [generate_spend_eq]
  unfold generateSpendE
  repeat' split
  all_goals first
    | rfl
    | exact panicFree_of_eq_error (by assumption) (panicFree_buildSpendWitness _ _)

theorem panicFree_generate_output (C : Codec) (P : Prover C) (rng : Nat)
    (req : OutputProofRequest) :
    panicFree (generate_output_proof_internal C P rng req) = true := by
  rw [generate_output_eq]
  unfold generateOutputE
  repeat' split
  all_goals first
    | rfl
    | exact panicFree_of_eq_error (by assumption) (panicFree_buildOutputWitness _ _ _)

/-- Inversion of a successful output-witness build: each witness field
is determined by the corresponding request field alone. -/
theorem buildOutputWitness_ok_inv {C : Codec} {rng : Nat}
    {req : OutputProofRequest} {w : OutputWitness C}
    (h : buildOutputWitness C rng req = .ok w) :
    parseU64 req.value "Invalid value" = .ok w.value ∧
    C.paymentAddressFromBytes (req.diversifier ++ req.pk_d) = some w.addr ∧
    bytes_to_fr req.rcm = .ok w.rcm := by
  rw [buildOutputWitness_eq] at h
  unfold buildOutputWitnessE at h
  split at h
  next e hv => exact Except.noConfusion h
  next value hv =>
  split at h
  next hc => exact Except.noConfusion h
  next hc =>
  split at h
  next hc2 => exact Except.noConfusion h
  next hc2 =>
  split at h
  next hc3 => exact Except.noConfusion h
  next hc3 =>
  split at h
  next hc4 => exact Except.noConfusion h
  next hc4 =>
  split at h
  next hpa => exact Except.noConfusion h
  next payment_address hpa =>
  split at h
  next e hrcm => exact Except.noConfusion h
  next rcm hrcm =>
  split at h
  next esk_bytes hesk =>
    split at h
    next hc5 => exact Except.noConfusion h
    next hc5 =>
    split at h
    next e he => exact Except.noConfusion h
    next esk he =>
      injection h with h5
      subst h5
      exact ⟨hv, hpa, hrcm⟩
  next hesk =>
    injection h with h5
    subst h5
    exact ⟨hv, hpa, hrcm⟩

/-- Inversion of a successful spend-witness build. -/
theorem buildSpendWitness_ok_inv {C : Codec} {req : SpendProofRequest}
    {w : SpendWitness C} (h : buildSpendWitness C req = .ok w) :
    ∃ ask nsk position path_elems,
      parseU64 req.value "Invalid value" = .ok w.value ∧
      parseU64 req.position "Invalid position" = .ok position ∧
      bytes_to_fr req.spending_key = .ok ask ∧
      bytes_to_fr req.nsk = .ok nsk ∧
      w.pgk = C.proofGenerationKey ⟨ask, nsk, List.replicate 32 0⟩ ∧
      bytes_to_fr req.alpha = .ok w.ar ∧
      bytes_to_scalar req.anchor = .ok w.anchor ∧
      decodePathElems C 0 req.merkle_path = .ok path_elems ∧
      C.merklePathFromParts path_elems position = some w.path ∧
      w.diversifier = List.replicate 11 0 ∧
      ∃ rv, bytes_to_fr req.rcv = .ok rv ∧ w.rseed = Rseed.beforeZip212 rv := by
  rw [buildSpendWitness_eq] at h
  unfold buildSpendWitnessE at h
  split at h
  next e hv => exact Except.noConfusion h
  next value hv =>
  split at h
  next e hp => exact Except.noConfusion h
  next position hp =>
  split at h
  next hc1 => exact Except.noConfusion h
  next hc1 =>
  split at h
  next hc2 => exact Except.noConfusion h
  next hc2 =>
  split at h
  next hc3 => exact Except.noConfusion h
  next hc3 =>
  split at h
  next hc4 => exact Except.noConfusion h
  next hc4 =>
  split at h
  next hc5 => exact Except.noConfusion h
  next hc5 =>
  split at h
  next e hask => exact Except.noConfusion h
  next ask hask =>
  split at h
  next e hnsk => exact Except.noConfusion h
  next nsk hnsk =>
  split at h
  next e har => exact Except.noConfusion h
  next ar har =>
  split at h
  next e hanc => exact Except.noConfusion h
  next anchor hanc =>
  split at h
  next e hpe => exact Except.noConfusion h
  next path_elems hpe =>
  split at h
  next hmp => exact Except.noConfusion h
  next merkle_path hmp =>
  split at h
  next e hrcv => exact Except.noConfusion h
  next rcv_fr hrcv =>
  injection h with h6
  subst h6
  exact ⟨ask, nsk, position, path_elems, hv, hp, hask, hnsk, rfl, har, hanc, hpe, hmp,
    rfl, rcv_fr, hrcv, rfl⟩

/-- Trivial backend instantiation over unit carrier types, used to
exhibit concrete runs of the pipelines. -/
def unitCodec : Codec where
  Addr := Unit
  Cmu := Unit
  Node := Unit
  Path := Unit
  PGK := Unit
  Cv := Unit
  Rk := Unit
  paymentAddressFromBytes := fun _ => some ()
  extractedNoteCommitmentFromBytes := fun _ => some ()
  nodeFromCmu := fun _ => ()
  merklePathFromParts := fun _ _ => some ()
  proofGenerationKey := fun _ => ()
  noteCmu := fun _ _ _ => ()
  cmuToBytes := fun _ => []
  cvToBytes := fun _ => []
  rkToBytes := fun _ => []

/-- Trivial prover over `unitCodec`. -/
def unitProver : Prover unitCodec where
  spendProof := fun _ _ _ _ _ _ _ => some ([], (), ())
  outputProof := fun _ _ _ _ => ([], ())

/-- A backend whose Merkle-path constructor accepts exactly paths of
length 2, used to exhibit the fixed-tree-depth rejection. -/
def depthTwoCodec : Codec :=
  { unitCodec with
    merklePathFromParts := fun ns _ => if ns.length = 2 then some () else none }

/-- Prover over `depthTwoCodec`. -/
def depthTwoProver : Prover depthTwoCodec where
  spendProof := fun _ _ _ _ _ _ _ => some ([], (), ())
  outputProof := fun _ _ _ _ => ([], ())

def zeros32 : List Byte := List.replicate 32 0

def zeros11 : List Byte := List.replicate 11 0

/-- 32 bytes of `0xFF`: not a canonical encoding of either field. -/
def ff32 : List Byte := List.replicate 32 255

/-- A well-formed spend request (with an empty Merkle path, which
`unitCodec` accepts). -/
def spendReqOk : SpendProofRequest :=
  ⟨zeros32, zeros32, "0", zeros32, zeros32, zeros32, [], "0"⟩

/-- A well-formed output request. -/
def outputReqOk : OutputProofRequest :=
  ⟨"100", zeros32, zeros32, zeros11, zeros32, none⟩

/-- An output request whose decimal value exceeds `2^64 - 1`. -/
def outputReqOverflow : OutputProofRequest :=
  ⟨"18446744073709551616", zeros32, zeros32, zeros11, zeros32, none⟩

theorem bytes_to_fr_ok_iff {b : List Byte} {x : Nat} :
    bytes_to_fr b = .ok x ↔ b.length = 32 ∧ leVal b < rJubjub ∧ x = leVal b := by
  rw [bytes_to_fr_eq]
  by_cases h : b.length = 32 <;> by_cases hlt : leVal b < rJubjub <;>
    simp [h, hlt, eq_comm]

theorem bytes_to_scalar_ok_iff {b : List Byte} {x : Nat} :
    bytes_to_scalar b = .ok x ↔ b.length = 32 ∧ leVal b < qBls ∧ x = leVal b := by
  rw [bytes_to_scalar_eq]
  by_cases h : b.length = 32 <;> by_cases hlt : leVal b < qBls <;>
    simp [h, hlt, eq_comm]

/-- C2: `bytes_to_fr` and `bytes_to_scalar` fail with the length error
exactly when the input is not 32 bytes; on 32-byte inputs they succeed
exactly when the little-endian value is below the respective field
modulus (canonical encoding), decoding to that value, and fail with the
invalid-encoding error otherwise.  As total Lean functions they are
deterministic by construction. -/
theorem claim_C2_codec_characterization (b : List Byte) :
    (bytes_to_fr b =
      if b.length = 32 then
        if leVal b < rJubjub then .ok (leVal b)
        else .error (.fail (.invalidEncoding "Invalid field element"))
      else .error (.fail (.lengthErr "Field element must be 32 bytes"))) ∧
    (bytes_to_scalar b =
      if b.length = 32 then
        if leVal b < qBls then .ok (leVal b)
        else .error (.fail (.invalidEncoding "Invalid scalar"))
      else .error (.fail (.lengthErr "Scalar must be 32 bytes"))) :=
  ⟨bytes_to_fr_eq b, bytes_to_scalar_eq b⟩

/-- C3: on canonical 32-byte encodings decoding succeeds and re-encoding
the decoded element returns exactly the input bytes; conversely every
field element below the modulus decodes back from its 32-byte encoding. -/
theorem claim_C3_roundtrip (b : List Byte) (x : Nat) :
    (b.length = 32 → leVal b < rJubjub →
      bytes_to_fr b = .ok (leVal b) ∧ leBytes 32 (leVal b) = b) ∧
    (b.length = 32 → leVal b < qBls →
      bytes_to_scalar b = .ok (leVal b) ∧ leBytes 32 (leVal b) = b) ∧
    (x < rJubjub → bytes_to_fr (leBytes 32 x) = .ok x) ∧
    (x < qBls → bytes_to_scalar (leBytes 32 x) = .ok x) := by
  have hr : rJubjub < 256 ^ 32 := by decide
  have hq : qBls < 256 ^ 32 := by decide
  refine ⟨fun h hlt => ⟨?_, ?_⟩, fun h hlt => ⟨?_, ?_⟩, fun hx => ?_, fun hx => ?_⟩
  · rw [bytes_to_fr_eq]; simp [h, hlt]
  · conv_rhs => rw [← leBytes_leVal b]
    rw [h]
  · rw [bytes_to_scalar_eq]; simp [h, hlt]
  · conv_rhs => rw [← leBytes_leVal b]
    rw [h]
  · rw [bytes_to_fr_eq]
    simp [leBytes_length, leVal_leBytes_of_lt (lt_trans hx hr), hx]
  · rw [bytes_to_scalar_eq]
    simp [leBytes_length, leVal_leBytes_of_lt (lt_trans hx hq), hx]

theorem claim_C3_roundtrip_witness :
    bytes_to_fr zeros32 = .ok (leVal zeros32) ∧
    leBytes 32 (leVal zeros32) = zeros32 ∧
    bytes_to_fr (leBytes 32 5) = .ok 5 := by
  have h := claim_C3_roundtrip zeros32 5
  exact ⟨(h.1 (by decide) (by decide)).1, (h.1 (by decide) (by decide)).2,
    h.2.2.1 (by decide)⟩

/-- C5: a failed witness build short-circuits both pipelines with the
same error for every prover, so the backend is never invoked on a
partial witness; decimal strings that are non-numeric or exceed
`2^64 - 1` fail at the parse step, and a value-parse failure aborts
either builder. -/
theorem claim_C5_no_partial_witness :
    (∀ (C : Codec) (P : Prover C) (req : SpendProofRequest) (e : RErr),
      buildSpendWitness C req = .error e →
      generate_spend_proof_internal C P req = .error e) ∧
    (∀ (C : Codec) (P : Prover C) (rng : Nat) (req : OutputProofRequest) (e : RErr),
      buildOutputWitness C rng req = .error e →
      generate_output_proof_internal C P rng req = .error e) ∧
    (∀ (s msg : String) (v : Nat), parsedDec s = some v → 2 ^ 64 ≤ v →
      parseU64 s msg = .error (.fail (.parseErr msg))) ∧
    (∀ (s msg : String), parsedDec s = none →
      parseU64 s msg = .error (.fail (.parseErr msg))) ∧
    (∀ (C : Codec) (rng : Nat) (req : OutputProofRequest) (e : RErr),
      parseU64 req.value "Invalid value" = .error e →
      buildOutputWitness C rng req = .error e) ∧
    (∀ (C : Codec) (req : SpendProofRequest) (e : RErr),
      parseU64 req.value "Invalid value" = .error e →
      buildSpendWitness C req = .error e) := by
  refine ⟨?_, ?_, ?_, ?_, ?_, ?_⟩
  · intro C P req e h
    rw [generate_spend_eq]; unfold generateSpendE; rw [h]
  · intro C P rng req e h
    rw [generate_output_eq]; unfold generateOutputE; rw [h]
  · intro s msg v hp hv
    simp only [parseU64, hp, if_neg (not_lt.mpr hv)]
  · intro s msg hp
    simp only [parseU64, hp]
  · intro C rng req e h
    rw [buildOutputWitness_eq]; unfold buildOutputWitnessE; rw [h]
  · intro C req e h
    rw [buildSpendWitness_eq]; unfold buildSpendWitnessE; rw [h]

theorem claim_C5_no_partial_witness_witness :
    generate_output_proof_internal unitCodec unitProver 7 outputReqOverflow =
      .error (.fail (.parseErr "Invalid value")) := by
  have h := claim_C5_no_partial_witness
  have hp : parseU64 outputReqOverflow.value "Invalid value" =
      .error (.fail (.parseErr "Invalid value")) :=
    h.2.2.1 outputReqOverflow.value "Invalid value" 18446744073709551616 (by rfl) (by decide)
  have hb := h.2.2.2.2.1 unitCodec 7 outputReqOverflow _ hp
  exact h.2.1 unitCodec unitProver 7 outputReqOverflow _ hb

/-- C7: a successful spend response carries `rk` and no `cmu`; a
successful output response carries `cmu` and no `rk`. -/
theorem claim_C7_exclusive_fields :
    (∀ (C : Codec) (P : Prover C) (req : SpendProofRequest) (r : ProofResponse),
      generate_spend_proof_internal C P req = .ok r →
      (∃ b, r.rk = some b) ∧ r.cmu = none) ∧
    (∀ (C : Codec) (P : Prover C) (rng : Nat) (req : OutputProofRequest)
      (r : ProofResponse),
      generate_output_proof_internal C P rng req = .ok r →
      (∃ b, r.cmu = some b) ∧ r.rk = none) := by
  constructor
  · intro C P req r h
    rw [generate_spend_eq] at h
    unfold generateSpendE at h
    split at h
    next e hb => exact Except.noConfusion h
    next w hb =>
      split at h
      next pf cv rk hsp =>
        injection h with h2
        subst h2
        exact ⟨⟨_, rfl⟩, rfl⟩
      next hsp => exact Except.noConfusion h
  · intro C P rng req r h
    rw [generate_output_eq] at h
    unfold generateOutputE at h
    split at h
    next e hb => exact Except.noConfusion h
    next w hb =>
      injection h with h2
      subst h2
      exact ⟨⟨_, rfl⟩, rfl⟩

theorem claim_C7_exclusive_fields_witness :
    ((∃ b, (ProofResponse.mk ([] : List Byte) [] (some []) none).rk = some b) ∧
      (ProofResponse.mk ([] : List Byte) [] (some []) none).cmu = none) ∧
    ((∃ b, (ProofResponse.mk ([] : List Byte) [] none (some [])).cmu = some b) ∧
      (ProofResponse.mk ([] : List Byte) [] none (some [])).rk = none) :=
  ⟨claim_C7_exclusive_fields.1 unitCodec unitProver spendReqOk _ (by rfl),
   claim_C7_exclusive_fields.2 unitCodec unitProver 7 outputReqOk _ (by rfl)⟩

/-- C9: no request, however malformed, makes either pipeline (or the
codec) hit a modelled panic site (`copy_from_slice` length mismatch,
`CtOption::unwrap` of `None`); every outcome is a regular success or a
reported error. -/
theorem claim_C9_no_panic (C : Codec) (P : Prover C) (req : SpendProofRequest)
    (rng : Nat) (oreq : OutputProofRequest) (b : List Byte) :
    panicFree (generate_spend_proof_internal C P req) = true ∧
    panicFree (generate_output_proof_internal C P rng oreq) = true ∧
    panicFree (bytes_to_fr b) = true ∧
    panicFree (bytes_to_scalar b) = true :=
  ⟨panicFree_generate_spend C P req, panicFree_generate_output C P rng oreq,
   panicFree_bytes_to_fr b, panicFree_bytes_to_scalar b⟩

/-- C10: the output builder uses the `rcv` field only for its length
check; two 32-byte `rcv` contents yield the same witness and the same
response. -/
theorem claim_C10_rcv_unused (C : Codec) (P : Prover C) (rng : Nat)
    (value : String) (rcv₁ rcv₂ rcm div pkd : List Byte)
    (esk : Option (List Byte))
    (h₁ : rcv₁.length = 32) (h₂ : rcv₂.length = 32) :
    buildOutputWitness C rng ⟨value, rcv₁, rcm, div, pkd, esk⟩ =
      buildOutputWitness C rng ⟨value, rcv₂, rcm, div, pkd, esk⟩ ∧
    generate_output_proof_internal C P rng ⟨value, rcv₁, rcm, div, pkd, esk⟩ =
      generate_output_proof_internal C P rng ⟨value, rcv₂, rcm, div, pkd, esk⟩ := by
  have hb : buildOutputWitness C rng ⟨value, rcv₁, rcm, div, pkd, esk⟩ =
      buildOutputWitness C rng ⟨value, rcv₂, rcm, div, pkd, esk⟩ := by
    rw [buildOutputWitness_eq, buildOutputWitness_eq]
    unfold buildOutputWitnessE
    simp only [h₁, h₂]
  refine ⟨hb, ?_⟩
  rw [generate_output_eq, generate_output_eq]
  unfold generateOutputE
  rw [hb]

theorem claim_C10_rcv_unused_witness :
    buildOutputWitness unitCodec 7 ⟨"100", zeros32, zeros32, zeros11, zeros32, none⟩ =
      buildOutputWitness unitCodec 7 ⟨"100", ff32, zeros32, zeros11, zeros32, none⟩ ∧
    generate_output_proof_internal unitCodec unitProver 7
        ⟨"100", zeros32, zeros32, zeros11, zeros32, none⟩ =
      generate_output_proof_internal unitCodec unitProver 7
        ⟨"100", ff32, zeros32, zeros11, zeros32, none⟩ :=
  claim_C10_rcv_unused unitCodec unitProver 7 "100" zeros32 ff32 zeros32 zeros11
    zeros32 none (by decide) (by decide)

/-- Inversion of a successful output proof call: the response's `cmu`
is the locally recomputed commitment of the built witness, and `rk` is
absent. -/
theorem generate_output_ok_inv {C : Codec} {P : Prover C} {rng : Nat}
    {req : OutputProofRequest} {r : ProofResponse}
    (h : generate_output_proof_internal C P rng req = .ok r) :
    ∃ w, buildOutputWitness C rng req = .ok w ∧
      r.cmu = some (C.cmuToBytes (C.noteCmu w.addr w.value
        (Rseed.afterZip212 (leBytes 32 w.rcm)))) ∧
      r.rk = none := by
  rw [generate_output_eq] at h
  unfold generateOutputE at h
  split at h
  next e hb => exact Except.noConfusion h
  next w hb =>
    injection h with h2
    subst h2
    exact ⟨w, hb, rfl, rfl⟩

/-- C1: on every successful output call the returned `cmu` is the
locally derived commitment of the note assembled from the decoded
payment address, the parsed value and the after-upgrade randomness
keyed by the 32-byte re-encoding of the decoded `rcm`; it does not
depend on the prover, the supplied or generated `esk`, or `rcv`, so any
two successful calls agreeing on (diversifier, pk_d, value, rcm) return
the same `cmu`. -/
theorem claim_C1_cmu_local (C : Codec) (P₁ P₂ : Prover C) (rng₁ rng₂ : Nat)
    (req₁ req₂ : OutputProofRequest) (r₁ r₂ : ProofResponse)
    (h₁ : generate_output_proof_internal C P₁ rng₁ req₁ = .ok r₁)
    (h₂ : generate_output_proof_internal C P₂ rng₂ req₂ = .ok r₂) :
    (∃ v a m, parseU64 req₁.value "Invalid value" = .ok v ∧
      C.paymentAddressFromBytes (req₁.diversifier ++ req₁.pk_d) = some a ∧
      bytes_to_fr req₁.rcm = .ok m ∧
      r₁.cmu = some (C.cmuToBytes (C.noteCmu a v
        (Rseed.afterZip212 (leBytes 32 m))))) ∧
    (req₁.diversifier = req₂.diversifier → req₁.pk_d = req₂.pk_d →
      req₁.value = req₂.value → req₁.rcm = req₂.rcm → r₁.cmu = r₂.cmu) := by
  obtain ⟨w₁, hb₁, hc₁, -⟩ := generate_output_ok_inv h₁
  obtain ⟨w₂, hb₂, hc₂, -⟩ := generate_output_ok_inv h₂
  obtain ⟨hv₁, hpa₁, hm₁⟩ := buildOutputWitness_ok_inv hb₁
  obtain ⟨hv₂, hpa₂, hm₂⟩ := buildOutputWitness_ok_inv hb₂
  constructor
  · exact ⟨w₁.value, w₁.addr, w₁.rcm, hv₁, hpa₁, hm₁, hc₁⟩
  · intro hd hp hv hm
    rw [hc₁, hc₂]
    have hval : w₁.value = w₂.value := by
      rw [hv] at hv₁
      have := hv₁.symm.trans hv₂
      injection this
    have haddr : w₁.addr = w₂.addr := by
      rw [hd, hp] at hpa₁
      have := hpa₁.symm.trans hpa₂
      injection this
    have hrcm : w₁.rcm = w₂.rcm := by
      rw [hm] at hm₁
      have := hm₁.symm.trans hm₂
      injection this
    rw [hval, haddr, hrcm]

theorem claim_C1_cmu_local_witness :
    (∃ v a m, parseU64 outputReqOk.value "Invalid value" = .ok v ∧
      unitCodec.paymentAddressFromBytes
        (outputReqOk.diversifier ++ outputReqOk.pk_d) = some a ∧
      bytes_to_fr outputReqOk.rcm = .ok m ∧
      (ProofResponse.mk ([] : List Byte) [] none (some [])).cmu =
        some (unitCodec.cmuToBytes (unitCodec.noteCmu a v
          (Rseed.afterZip212 (leBytes 32 m))))) ∧
    (outputReqOk.diversifier = outputReqOk.diversifier →
      outputReqOk.pk_d = outputReqOk.pk_d →
      outputReqOk.value = outputReqOk.value →
      outputReqOk.rcm = outputReqOk.rcm →
      (ProofResponse.mk ([] : List Byte) [] none (some [])).cmu =
        (ProofResponse.mk ([] : List Byte) [] none (some [])).cmu) :=
  claim_C1_cmu_local unitCodec unitProver unitProver 3 9 outputReqOk outputReqOk
    _ _ (by rfl) (by rfl)

/-- C4: every spend witness that reaches the backend carries a proof
generation key assembled from the decoded `ask`/`nsk` with an all-zero
outgoing viewing key, an all-zero 11-byte diversifier, and note
randomness `BeforeZip212` of the decoded `rcv`; the backend is invoked
on exactly that witness. -/
theorem claim_C4_fixed_witness_fields (C : Codec) (req : SpendProofRequest)
    (w : SpendWitness C) (h : buildSpendWitness C req = .ok w) :
    (∃ ask nsk, bytes_to_fr req.spending_key = .ok ask ∧
      bytes_to_fr req.nsk = .ok nsk ∧
      w.pgk = C.proofGenerationKey ⟨ask, nsk, List.replicate 32 0⟩) ∧
    w.diversifier = List.replicate 11 0 ∧
    (∃ rv, bytes_to_fr req.rcv = .ok rv ∧ w.rseed = Rseed.beforeZip212 rv) ∧
    (∀ P : Prover C, generate_spend_proof_internal C P req =
      match P.spendProof w.pgk w.diversifier w.rseed w.ar w.value w.anchor w.path with
      | some (pf, cv, rk) => .ok ⟨pf, C.cvToBytes cv, some (C.rkToBytes rk), none⟩
      | none => .error (.fail (.provingErr
          "Proof generation failed - check inputs (anchor, merkle path, etc.)"))) := by
  obtain ⟨ask, nsk, position, path_elems, hv, hp, hask, hnsk, hpgk, har, hanc, hpe,
    hmp, hdiv, rv, hrcv, hrs⟩ := buildSpendWitness_ok_inv h
  refine ⟨⟨ask, nsk, hask, hnsk, hpgk⟩, hdiv, ⟨rv, hrcv, hrs⟩, ?_⟩
  intro P
  rw [generate_spend_eq]
  unfold generateSpendE
  rw [h]

theorem claim_C4_fixed_witness_fields_witness :
    (⟨(), List.replicate 11 0, Rseed.beforeZip212 0, 0, 0, 0, ()⟩ :
      SpendWitness unitCodec).diversifier = List.replicate 11 0 :=
  (claim_C4_fixed_witness_fields unitCodec spendReqOk
    ⟨(), List.replicate 11 0, Rseed.beforeZip212 0, 0, 0, 0, ()⟩ (by rfl)).2.1

/-- C8: when the backend's path constructor accepts only its fixed tree
depth `d` (the spec's collaborator contract for
`MerklePath::from_parts`), any otherwise well-formed spend request
whose sibling list has a different length is rejected with the path
error, for every leaf position, and no prover is ever consulted. -/
theorem claim_C8_path_depth (C : Codec) (d : Nat)
    (hC : ∀ (ns : List C.Node) (pos : Nat), ns.length ≠ d →
      C.merklePathFromParts ns pos = none)
    (req : SpendProofRequest) (v p ask nsk ar anchor : Nat)
    (hv : parseU64 req.value "Invalid value" = .ok v)
    (hp : parseU64 req.position "Invalid position" = .ok p)
    (hask : bytes_to_fr req.spending_key = .ok ask)
    (hnsk : bytes_to_fr req.nsk = .ok nsk)
    (hrcv : req.rcv.length = 32)
    (har : bytes_to_fr req.alpha = .ok ar)
    (hanc : bytes_to_scalar req.anchor = .ok anchor)
    (hpath : ∀ x ∈ req.merkle_path, x.length = 32 ∧
      (C.extractedNoteCommitmentFromBytes x).isSome = true)
    (hlen : req.merkle_path.length ≠ d) :
    buildSpendWitness C req = .error (.fail (.pathErr
      "Failed to create MerklePath - invalid position or path length")) ∧
    ∀ P : Prover C, generate_spend_proof_internal C P req =
      .error (.fail (.pathErr
        "Failed to create MerklePath - invalid position or path length")) := by
  have h1 : req.spending_key.length = 32 := (bytes_to_fr_ok_iff.mp hask).1
  have h2 : req.nsk.length = 32 := (bytes_to_fr_ok_iff.mp hnsk).1
  have h4 : req.alpha.length = 32 := (bytes_to_fr_ok_iff.mp har).1
  have h5 : req.anchor.length = 32 := (bytes_to_scalar_ok_iff.mp hanc).1
  obtain ⟨ns, hns, hnslen⟩ := decodePathElems_all_ok C req.merkle_path 0 hpath
  have hmp : C.merklePathFromParts ns p = none := by
    apply hC
    rw [hnslen]
    exact hlen
  have hb : buildSpendWitness C req = .error (.fail (.pathErr
      "Failed to create MerklePath - invalid position or path length")) := by
    rw [buildSpendWitness_eq]
    unfold buildSpendWitnessE
    simp only [hv, hp, h1, h2, hrcv, h4, h5, ne_eq, not_true_eq_false, ite_false,
      if_false, hask, hnsk, har, hanc, hns, hmp]
  refine ⟨hb, ?_⟩
  intro P
  rw [generate_spend_eq]
  unfold generateSpendE
  rw [hb]

theorem claim_C8_path_depth_witness :
    buildSpendWitness depthTwoCodec spendReqOk = .error (.fail (.pathErr
      "Failed to create MerklePath - invalid position or path length")) :=
  (claim_C8_path_depth depthTwoCodec 2
    (fun ns pos h => if_neg h) spendReqOk 0 0 0 0 0 0
    (by rfl) (by rfl) (by rfl) (by rfl) (by decide) (by rfl) (by rfl)
    (by intro x hx; cases hx) (by decide)).1

/-- A spend request with a non-canonical (all-`0xFF`) spending key and a
wrong-length (empty) Merkle path sibling. -/
def spendReqBadAskBadSibling : SpendProofRequest :=
  ⟨ff32, zeros32, "0", zeros32, zeros32, zeros32, [[]], "0"⟩

/-- C6 counterexample: this request contains a Merkle path sibling of
length 0 ≠ 32, yet the builder reports the invalid-encoding failure of
the spending-key decode, not a length error naming the sibling — the
spending-key decode is attempted before the sibling length check, so
length validation is not completed before scalar decoding begins. -/
theorem claim_C6_counterexample :
    spendReqBadAskBadSibling.merkle_path = [([] : List Byte)] ∧
    ([] : List Byte).length ≠ 32 ∧
    buildSpendWitness unitCodec spendReqBadAskBadSibling =
      .error (.fail (.invalidEncoding "Invalid field element")) :=
  ⟨rfl, by decide, by rfl⟩

/-- C6 (amended): the five fixed-length fields are length-checked, in
request order, before any scalar decode, and a wrong length there
yields the length error naming the first offending field; each Merkle
path sibling is length-checked immediately before its own decode —
after `ask`, `nsk`, `alpha` and `anchor` have been decoded and all
earlier siblings decoded — and only then does a wrong-length sibling
yield the length error naming its index. -/
theorem claim_C6_length_gate_order (C : Codec) (req : SpendProofRequest)
    (v p : Nat)
    (hv : parseU64 req.value "Invalid value" = .ok v)
    (hp : parseU64 req.position "Invalid position" = .ok p) :
    (req.spending_key.length ≠ 32 →
      buildSpendWitness C req =
        .error (.fail (.lengthErr "spending_key (ask) must be 32 bytes"))) ∧
    (req.spending_key.length = 32 → req.nsk.length ≠ 32 →
      buildSpendWitness C req =
        .error (.fail (.lengthErr "nsk must be 32 bytes"))) ∧
    (req.spending_key.length = 32 → req.nsk.length = 32 → req.rcv.length ≠ 32 →
      buildSpendWitness C req =
        .error (.fail (.lengthErr "rcv must be 32 bytes"))) ∧
    (req.spending_key.length = 32 → req.nsk.length = 32 → req.rcv.length = 32 →
      req.alpha.length ≠ 32 →
      buildSpendWitness C req =
        .error (.fail (.lengthErr "alpha must be 32 bytes"))) ∧
    (req.spending_key.length = 32 → req.nsk.length = 32 → req.rcv.length = 32 →
      req.alpha.length = 32 → req.anchor.length ≠ 32 →
      buildSpendWitness C req =
        .error (.fail (.lengthErr "anchor must be 32 bytes"))) ∧
    (∀ (ask nsk ar anchor : Nat) (pre : List (List Byte)) (e : List Byte)
      (rest : List (List Byte)),
      bytes_to_fr req.spending_key = .ok ask →
      bytes_to_fr req.nsk = .ok nsk →
      bytes_to_fr req.alpha = .ok ar →
      bytes_to_scalar req.anchor = .ok anchor →
      req.rcv.length = 32 →
      req.merkle_path = pre ++ e :: rest →
      (∀ x ∈ pre, x.length = 32 ∧
        (C.extractedNoteCommitmentFromBytes x).isSome = true) →
      e.length ≠ 32 →
      buildSpendWitness C req = .error (.fail (.lengthErr
        ("Merkle path element " ++ toString pre.length ++ " must be 32 bytes")))) := by
  refine ⟨?_, ?_, ?_, ?_, ?_, ?_⟩
  · intro hsk
    rw [buildSpendWitness_eq]
    unfold buildSpendWitnessE
    simp only [hv, hp, hsk, ne_eq, not_true_eq_false, not_false_eq_true, ite_true,
      ite_false, if_true, if_false]
  · intro hsk hnsk
    rw [buildSpendWitness_eq]
    unfold buildSpendWitnessE
    simp only [hv, hp, hsk, hnsk, ne_eq, not_true_eq_false, not_false_eq_true,
      ite_true, ite_false, if_true, if_false]
  · intro hsk hnsk hrcv
    rw [buildSpendWitness_eq]
    unfold buildSpendWitnessE
    simp only [hv, hp, hsk, hnsk, hrcv, ne_eq, not_true_eq_false, not_false_eq_true,
      ite_true, ite_false, if_true, if_false]
  · intro hsk hnsk hrcv halpha
    rw [buildSpendWitness_eq]
    unfold buildSpendWitnessE
    simp only [hv, hp, hsk, hnsk, hrcv, halpha, ne_eq, not_true_eq_false,
      not_false_eq_true, ite_true, ite_false, if_true, if_false]
  · intro hsk hnsk hrcv halpha hanchor
    rw [buildSpendWitness_eq]
    unfold buildSpendWitnessE
    simp only [hv, hp, hsk, hnsk, hrcv, halpha, hanchor, ne_eq, not_true_eq_false,
      not_false_eq_true, ite_true, ite_false, if_true, if_false]
  · intro ask nsk ar anchor pre e rest hask hnsk har hanc hrcv hmp hpre he
    have h1 : req.spending_key.length = 32 := (bytes_to_fr_ok_iff.mp hask).1
    have h2 : req.nsk.length = 32 := (bytes_to_fr_ok_iff.mp hnsk).1
    have h4 : req.alpha.length = 32 := (bytes_to_fr_ok_iff.mp har).1
    have h5 : req.anchor.length = 32 := (bytes_to_scalar_ok_iff.mp hanc).1
    have hd : decodePathElems C 0 req.merkle_path = .error (.fail (.lengthErr
        ("Merkle path element " ++ toString pre.length ++ " must be 32 bytes"))) := by
      rw [hmp]
      have := decodePathElems_badlen_after C pre e rest 0 hpre he
      simpa using this
    rw [buildSpendWitness_eq]
    unfold buildSpendWitnessE
    simp only [hv, hp, h1, h2, hrcv, h4, h5, ne_eq, not_true_eq_false, ite_false,
      if_false, hask, hnsk, har, hanc, hd]

/-- A spend request, well-formed except for an empty (length-0)
spending key. -/
def spendReqShortKey : SpendProofRequest :=
  ⟨[], zeros32, "0", zeros32, zeros32, zeros32, [], "0"⟩

/-- A spend request, well-formed except for an empty Merkle path
sibling. -/
def spendReqBadSibling : SpendProofRequest :=
  ⟨zeros32, zeros32, "0", zeros32, zeros32, zeros32, [[]], "0"⟩

theorem claim_C6_length_gate_order_witness :
    buildSpendWitness unitCodec spendReqShortKey =
      .error (.fail (.lengthErr "spending_key (ask) must be 32 bytes")) ∧
    buildSpendWitness unitCodec spendReqBadSibling =
      .error (.fail (.lengthErr
        ("Merkle path element " ++ toString (List.length ([] : List (List Byte))) ++
          " must be 32 bytes"))) := by
  constructor
  · exact (claim_C6_length_gate_order unitCodec spendReqShortKey 0 0 (by rfl)
      (by rfl)).1 (by decide)
  · exact (claim_C6_length_gate_order unitCodec spendReqBadSibling 0 0 (by rfl)
      (by rfl)).2.2.2.2.2 0 0 0 0 [] [] [] (by rfl) (by rfl) (by rfl) (by rfl)
      (by decide) (by rfl) (by intro x hx; cases hx) (by decide)
